import Mathlib

/-!
Verification of the filter-rank-report pipeline of `go-find-vaccine`
(`src/main.go`) against its natural-language specification.

Modelling conventions:
* Go `float64` values that the pipeline only compares and carries around
  (distances, coordinates, configuration thresholds) are modelled as `ℚ`,
  a linear order with decidable comparisons.
* The call to the third-party `haversine.Distance` function is modelled as
  an explicit parameter `dist : Coord ℚ → Coord ℚ → ℚ` of the pipeline:
  the pipeline uses nothing about it beyond its return value, so every
  theorem quantified over `dist` holds in particular of the real distance
  function.  The mathematical content of the haversine formula itself is
  modelled separately over `ℝ` (see `haversineMiles`).
* Go strings are Lean `String`s; `strings.ToLower` and `strings.TrimSpace`
  are modelled by `goToLower`/`goTrimSpace` below, which agree with Go on
  ASCII data (the only data the claims exercise).
* `log.Fatalf` on a failed fetch is modelled by `Except`: the run either
  fails with an error message or produces the list of reported locations.
-/

/-- Character-level lower-casing as performed by `strings.ToLower`,
restricted to ASCII (Go additionally folds non-ASCII letters, which no
claim exercises). -/
def goCharToLower (c : Char) : Char :=
  if 'A' ≤ c ∧ c ≤ 'Z' then Char.ofNat (c.toNat + 32) else c

/-- Models Go `strings.ToLower` on ASCII strings. -/
def goToLower (s : String) : String :=
  ⟨s.data.map goCharToLower⟩

/-- White-space test of Go `unicode.IsSpace` restricted to ASCII. -/
def goIsSpace (c : Char) : Bool :=
  c = ' ' ∨ c = '\t' ∨ c = '\n' ∨ c = '\x0b' ∨ c = '\x0c' ∨ c = '\r'

/-- Models Go `strings.TrimSpace` on ASCII strings: drops leading and
trailing white space. -/
def goTrimSpace (s : String) : String :=
  ⟨((s.data.dropWhile goIsSpace).reverse.dropWhile goIsSpace).reverse⟩

/-- Models `haversine.Coord` (a latitude/longitude pair in degrees).  The
component type is a parameter: the pipeline works with the `ℚ` model of
`float64`, the haversine-formula model works over `ℝ`. -/
structure Coord (α : Type) where
  Lat : α
  Lon : α
deriving DecidableEq

/-- Models the `configuration` struct of `src/main.go`. -/
structure configuration where
  APIURLs : List String
  AddUUIDParameter : Bool
  SearchLatitude : ℚ
  SearchLongitude : ℚ
  NumNearestLocationsToLog : Int
  FilterProvider : String
  FilterDistanceMiles : ℚ
deriving DecidableEq

/-- Models the `geometry` struct: a raw coordinate list of arbitrary
length, `[longitude, latitude]` when well formed. -/
structure geometry where
  Coordinates : List ℚ
deriving DecidableEq

/-- Models the `appointment` struct (`Type` is renamed `Type'`, the Go
field name being a Lean keyword). -/
structure appointment where
  Time : String
  Type' : String
  VaccineTypes : List String
  AppointmentTypes : List String
deriving DecidableEq

/-- Models the `vaccineLocationProperties` struct. -/
structure vaccineLocationProperties where
  URL : String
  Provider : String
  ProviderLocationID : String
  City : String
  Name : String
  State : String
  Address : String
  PostalCode : String
  AppointmentsLastFetched : String
  AppointmentsLastModified : String
  AppointmentsAvailable : Bool
  AppointmentsAvailableAllDoses : Bool
  AppointmentsAvailable2ndDoseOnly : Bool
  Appointments : List appointment
deriving DecidableEq

/-- Models the `vaccineLocationFeature` struct. -/
structure vaccineLocationFeature where
  Geometry : geometry
  Properties : vaccineLocationProperties
deriving DecidableEq

/-- Models the `apiGETResponse` struct. -/
structure apiGETResponse where
  Features : List vaccineLocationFeature
deriving DecidableEq

/-- Models the `vaccineLocationFeatureAndDistance` struct (the
`RankedLocation` of the spec); the Go field holds a pointer to the
feature, modelled by the feature value itself. -/
structure vaccineLocationFeatureAndDistance where
  vaccineLocationFeature : vaccineLocationFeature
  distanceMiles : ℚ
deriving DecidableEq

/-- The search location built from the configuration
(`src/main.go` lines 145-148). -/
def searchLocation (cfg : configuration) : Coord ℚ :=
  ⟨cfg.SearchLatitude, cfg.SearchLongitude⟩

/-- The availability predicate of the spec (section 4.2): the negation of
the skip condition on line 184 of `src/main.go`. -/
def hasAppointments (f : vaccineLocationFeature) : Bool :=
  ¬(f.Properties.Appointments.length = 0 ∧ f.Properties.AppointmentsAvailable = false)

/-- One iteration of the feature loop of `searchForAppointments`
(`src/main.go` lines 174-214): the chain of `continue` guards, ending
either in exclusion (`none`) or in the ranked location (`some`).
`filterProvider` is the already lower-cased criterion computed on line
167, `dist` stands for `haversine.Distance` (miles component). -/
def processFeature (dist : Coord ℚ → Coord ℚ → ℚ) (searchLoc : Coord ℚ)
    (filterProvider : String) (filterDistanceMiles : ℚ)
    (f : vaccineLocationFeature) : Option vaccineLocationFeatureAndDistance :=
  let featureProvider := goTrimSpace (goToLower f.Properties.Provider)
  if filterProvider.length > 0 ∧ filterProvider ≠ featureProvider then none
  else if f.Properties.Appointments.length = 0 ∧ f.Properties.AppointmentsAvailable = false then none
  else if f.Geometry.Coordinates.length ≠ 2 then none
  else
    let featureLocation : Coord ℚ :=
      ⟨f.Geometry.Coordinates.getD 1 0, f.Geometry.Coordinates.getD 0 0⟩
    let currentFeatureDistanceMiles := dist searchLoc featureLocation
    if filterDistanceMiles > 0 ∧ currentFeatureDistanceMiles > filterDistanceMiles then none
    else some ⟨f, currentFeatureDistanceMiles⟩

/-- The survivor list built by the nested response/feature loops of
`searchForAppointments` (`src/main.go` lines 170-215), in loop order. -/
def locationsWithAppointmentsPassingFilters (dist : Coord ℚ → Coord ℚ → ℚ)
    (cfg : configuration) : List apiGETResponse → List vaccineLocationFeatureAndDistance
  | [] => []
  | resp :: rest =>
      resp.Features.filterMap
        (processFeature dist (searchLocation cfg) (goToLower cfg.FilterProvider)
          cfg.FilterDistanceMiles)
        ++ locationsWithAppointmentsPassingFilters dist cfg rest

/-- Swap of two positions of a list (Go `reflect.Swapper` semantics);
out-of-range indices leave the list unchanged. -/
def listSwap {α : Type} (l : List α) (i j : Nat) : List α :=
  match l[i]?, l[j]? with
  | some x, some y => (l.set i y).set j x
  | _, _ => l

/-- One step of the gap-6 Shell pass of Go `sort.Slice`
(`sort.quickSort`, small-slice branch): compare positions `i` and `i-6`
and swap when strictly out of order.  Steps with `i < 6` do nothing. -/
def shellStep {α : Type} (lt : α → α → Bool) (acc : List α) (i : Nat) : List α :=
  if i < 6 then acc
  else
    match acc[i]?, acc[i - 6]? with
    | some x, some y => if lt x y then listSwap acc i (i - 6) else acc
    | _, _ => acc

/-- The gap-6 Shell pass of Go `sort.Slice` over the whole slice. -/
def shellPass6 {α : Type} (lt : α → α → Bool) (l : List α) : List α :=
  (List.range l.length).foldl (shellStep lt) l

/-- Insertion of one element into a sorted prefix, as Go's
`insertionSort` does it: the element moves left past strictly greater
elements and stops at the first element not strictly greater, so it lands
after all earlier elements of equal key. -/
def goInsertOne {α : Type} (lt : α → α → Bool) (x : α) : List α → List α
  | [] => [x]
  | y :: ys => if lt x y then x :: y :: ys else y :: goInsertOne lt x ys

/-- Go's `insertionSort`: left-to-right insertion into the sorted
prefix. -/
def goInsertionSort {α : Type} (lt : α → α → Bool) (l : List α) : List α :=
  l.foldl (fun acc x => goInsertOne lt x acc) []

/-- Models Go `sort.Slice` (Go ≤ 1.18): for slices of at most 12
elements the quicksort driver is never entered and the algorithm is
exactly a gap-6 Shell pass followed by insertion sort, which this
function performs; for longer slices it still sorts by `lt` (insertion
sort is a total sort) but Go would instead run quicksort first, which can
order ties differently.  `sort.Slice` is documented as not stable. -/
def sortSlice {α : Type} (lt : α → α → Bool) (l : List α) : List α :=
  goInsertionSort lt (shellPass6 lt l)

/-- The comparator passed to `sort.Slice` on lines 219-221 of
`src/main.go`. -/
def distanceLess (x y : vaccineLocationFeatureAndDistance) : Bool :=
  x.distanceMiles < y.distanceMiles

/-- The survivor list after the sort on lines 219-221. -/
def sortedLocations (dist : Coord ℚ → Coord ℚ → ℚ) (cfg : configuration)
    (apiResponses : List apiGETResponse) : List vaccineLocationFeatureAndDistance :=
  sortSlice distanceLess (locationsWithAppointmentsPassingFilters dist cfg apiResponses)

/-- The locations reported by the loop on lines 225-227:
`for i := 0; i < N && i < len; i++`, i.e. the first
`max N 0` sorted survivors. -/
def nearestLocationsToLog (dist : Coord ℚ → Coord ℚ → ℚ) (cfg : configuration)
    (apiResponses : List apiGETResponse) : List vaccineLocationFeatureAndDistance :=
  (sortedLocations dist cfg apiResponses).take cfg.NumNearestLocationsToLog.toNat

/-- The fetch loop of lines 153-165: each feed is fetched in order and
the first failure aborts the whole run (`log.Fatalf`).  The outcome of
each individual fetch (network, HTTP status and JSON parsing combined) is
the corresponding entry of the input list. -/
def fetchLoop : List (Except String apiGETResponse) → Except String (List apiGETResponse)
  | [] => Except.ok []
  | r :: rs =>
      match r with
      | Except.error e => Except.error e
      | Except.ok a =>
          match fetchLoop rs with
          | Except.error e => Except.error e
          | Except.ok as => Except.ok (a :: as)

/-- The whole of `searchForAppointments` (`src/main.go` lines 142-229):
fetch every configured feed (fail-fast), then filter, rank and report.
The value returned is the sequence of reported locations. -/
def searchForAppointments (dist : Coord ℚ → Coord ℚ → ℚ) (cfg : configuration)
    (fetchResults : List (Except String apiGETResponse)) :
    Except String (List vaccineLocationFeatureAndDistance) :=
  match fetchLoop fetchResults with
  | Except.error e => Except.error e
  | Except.ok rs => Except.ok (nearestLocationsToLog dist cfg rs)

/-- Degrees-to-radians conversion used by the haversine formula. -/
noncomputable def degreesToRadians (d : ℝ) : ℝ :=
  d * (Real.pi / 180)

/-- Modelled from the spec: the implementation of `haversine.Distance`
lives in the third-party `github.com/umahmood/haversine` module, whose
source is not part of this repository; the spec (section 4.1) specifies
"the great-circle distance between them in miles, using the haversine
formula on a spherical Earth approximation".  This is that formula, over
`ℝ`, with the conventional Earth radius in miles. -/
noncomputable def haversineMiles (p q : Coord ℝ) : ℝ :=
  let lat1 := degreesToRadians p.Lat
  let lon1 := degreesToRadians p.Lon
  let lat2 := degreesToRadians q.Lat
  let lon2 := degreesToRadians q.Lon
  let dLat := lat2 - lat1
  let dLon := lon2 - lon1
  let a := Real.sin (dLat / 2) ^ 2 + Real.cos lat1 * Real.cos lat2 * Real.sin (dLon / 2) ^ 2
  let c := 2 * Real.arcsin (Real.sqrt a)
  3958 * c

/-- A concrete computable instantiation of the abstract distance
parameter, used by the concrete runs below: the "distance" of a feature
point is simply its latitude component, so a feature at coordinates
`[0, d]` lies at distance `d`.  Any function of the two points is a
legitimate instantiation, since the pipeline only reads the returned
value. -/
def testDist (_p q : Coord ℚ) : ℚ :=
  q.Lat

/-- A feature fixture: name, provider, raw coordinates, number of
appointment slots, availability flag; all other metadata fields empty. -/
def mkFeat (name prov : String) (coords : List ℚ) (apts : Nat) (avail : Bool) :
    vaccineLocationFeature :=
  ⟨⟨coords⟩, ⟨"", prov, "", "", name, "", "", "", "", "", avail, false, false,
    List.replicate apts ⟨"", "", [], []⟩⟩⟩

/-! ### Concrete fixtures used by witnesses and counterexamples

With `testDist`, a feature at coordinates `[0, d]` lies at distance `d`
from any search point. -/

def cfgC1 : configuration := ⟨["url"], false, 0, 0, 7, "", 0⟩

/-- Seven qualifying features; the two named `A` and `B` lie at the same
distance 1, with `A` before `B` in feed order. -/
def featuresC1 : List vaccineLocationFeature :=
  [ mkFeat "F0" "p" [0, 5] 1 false
  , mkFeat "A"  "p" [0, 1] 1 false
  , mkFeat "C"  "p" [0, 9] 1 false
  , mkFeat "D"  "p" [0, 9] 1 false
  , mkFeat "E"  "p" [0, 9] 1 false
  , mkFeat "G"  "p" [0, 9] 1 false
  , mkFeat "B"  "p" [0, 1] 1 false ]

def cfgC2 : configuration := ⟨["url"], false, 0, 0, 5, " clinic a ", 0⟩

def featC2 : vaccineLocationFeature := mkFeat "X" "clinic a" [0, 1] 1 false

def cfgC3 : configuration := ⟨["url"], false, 0, 0, 3, "Clinic A", 10⟩

def featC3 : vaccineLocationFeature := mkFeat "W" " Clinic A " [0, 5] 1 false

def rC3 : vaccineLocationFeatureAndDistance := ⟨featC3, 5⟩

def cfgC4 : configuration := ⟨["url"], false, 0, 0, 2, "", 0⟩

def featuresC4 : List vaccineLocationFeature :=
  [ mkFeat "P" "p" [0, 3] 1 false
  , mkFeat "Q" "p" [0, 1] 0 true
  , mkFeat "R" "p" [0, 2] 2 false ]

def cfgC5 : configuration := ⟨["url"], false, 0, 0, 7, "", 0⟩

/-- A feature with an empty appointment list and an unset availability
flag, at distance 1. -/
def featC5 : vaccineLocationFeature := mkFeat "N" "p" [0, 1] 0 false

def cfgC6 : configuration := ⟨["url"], false, 0, 0, 7, "", 0⟩

/-- A feature with three coordinate values. -/
def featC6bad : vaccineLocationFeature := mkFeat "B3" "p" [0, 1, 2] 1 false

/-- A feature with coordinates `[7, 3]`, i.e. longitude 7 and latitude 3. -/
def featC6good : vaccineLocationFeature := mkFeat "G2" "p" [7, 3] 1 false

/-- A feature at distance 15 (the spec scenario pairs it with a maximum
distance of 10). -/
def featC7 : vaccineLocationFeature := mkFeat "F15" "p" [0, 15] 1 false

def cfgC8 : configuration := ⟨["url1", "url2"], false, 0, 0, 4, "", 0⟩

/-- First feed of the multi-feed scenario: three qualifying features. -/
def feedA : apiGETResponse :=
  ⟨[ mkFeat "A1" "p" [0, 10] 1 false
   , mkFeat "A2" "p" [0, 20] 1 false
   , mkFeat "A3" "p" [0, 30] 1 false ]⟩

/-- Second feed of the multi-feed scenario: two qualifying features. -/
def feedB : apiGETResponse :=
  ⟨[ mkFeat "B1" "p" [0, 5] 1 false
   , mkFeat "B2" "p" [0, 15] 1 false ]⟩

def rsC8ok : List (Except String apiGETResponse) := [Except.ok feedA, Except.ok feedB]

def rsC8err : List (Except String apiGETResponse) := [Except.error "boom", Except.ok feedA]

def cfgC10 : configuration := ⟨["url"], false, 0, 0, -1, "", 0⟩

def featC10 : vaccineLocationFeature := mkFeat "T" "p" [0, 1] 1 false

/-! ### Helper lemmas about the embedded sort -/

theorem goInsertOne_perm {α : Type} (lt : α → α → Bool) (x : α) (l : List α) :
    (goInsertOne lt x l).Perm (x :: l) := by
  induction l with
  | nil => exact List.Perm.refl _
  | cons y ys ih =>
      simp only [goInsertOne]
      split
      · exact List.Perm.refl _
      · exact (ih.cons y).trans (List.Perm.swap x y ys)

theorem goInsertionSort_aux_perm {α : Type} (lt : α → α → Bool) :
    ∀ (l acc : List α), (l.foldl (fun acc x => goInsertOne lt x acc) acc).Perm (acc ++ l) := by
  intro l
  induction l with
  | nil => intro acc; simp
  | cons x xs ih =>
      intro acc
      have h1 := ih (goInsertOne lt x acc)
      have h2 : (goInsertOne lt x acc ++ xs).Perm ((x :: acc) ++ xs) :=
        (goInsertOne_perm lt x acc).append_right xs
      have h3 : ((x :: acc) ++ xs).Perm (acc ++ x :: xs) := by
        simpa using List.perm_middle.symm
      exact (h1.trans h2).trans h3

theorem goInsertionSort_perm {α : Type} (lt : α → α → Bool) (l : List α) :
    (goInsertionSort lt l).Perm l := by
  simpa using goInsertionSort_aux_perm lt l []

theorem set_append_perm {α : Type} :
    ∀ (l : List α) (i : Nat) (x y : α), l[i]? = some y →
      ((l.set i x) ++ [y]).Perm (l ++ [x])
  | [], i, x, y, h => by simp at h
  | a :: t, 0, x, y, h => by
      simp only [List.getElem?_cons_zero, Option.some.injEq] at h
      subst h
      simp only [List.set_cons_zero, List.cons_append]
      exact ((List.perm_append_singleton a t).cons x).trans
        ((List.Perm.swap a x t).trans (((List.perm_append_singleton x t).symm).cons a))
  | a :: t, (j+1), x, y, h => by
      simp only [List.getElem?_cons_succ] at h
      simp only [List.set_cons_succ, List.cons_append]
      exact (set_append_perm t j x y h).cons a

theorem set_self_of_getElem? {α : Type} :
    ∀ (l : List α) (i : Nat) (x : α), l[i]? = some x → l.set i x = l
  | [], i, x, h => by simp at h
  | a :: t, 0, x, h => by
      simp only [List.getElem?_cons_zero, Option.some.injEq] at h
      subst h; rfl
  | a :: t, (j+1), x, h => by
      simp only [List.getElem?_cons_succ] at h
      simp only [List.set_cons_succ]
      rw [set_self_of_getElem? t j x h]

theorem listSwap_perm {α : Type} (l : List α) (i j : Nat) : (listSwap l i j).Perm l := by
  cases hx : l[i]? with
  | none => simp [listSwap, hx]
  | some x =>
      cases hy : l[j]? with
      | none => simp [listSwap, hx, hy]
      | some y =>
          by_cases hij : i = j
          · subst hij
            rw [hx] at hy
            cases hy
            simp only [listSwap, hx]
            rw [List.set_set, set_self_of_getElem? l i x hx]
          · simp only [listSwap, hx, hy]
            have hy' : (l.set i y)[j]? = some y := by
              rw [List.getElem?_set_ne hij]; exact hy
            have p1 := set_append_perm (l.set i y) j x y hy'
            have p2 := set_append_perm l i y x hx
            exact (List.perm_append_right_iff [y]).mp (p1.trans p2)

theorem shellStep_perm {α : Type} (lt : α → α → Bool) (acc : List α) (i : Nat) :
    (shellStep lt acc i).Perm acc := by
  unfold shellStep
  split
  · exact List.Perm.refl _
  · split
    · split
      · exact listSwap_perm _ _ _
      · exact List.Perm.refl _
    · exact List.Perm.refl _

theorem foldl_shellStep_perm {α : Type} (lt : α → α → Bool) :
    ∀ (idxs : List Nat) (acc : List α), (idxs.foldl (shellStep lt) acc).Perm acc := by
  intro idxs
  induction idxs with
  | nil => intro acc; exact List.Perm.refl _
  | cons i is ih =>
      intro acc
      exact (ih (shellStep lt acc i)).trans (shellStep_perm lt acc i)

theorem shellPass6_perm {α : Type} (lt : α → α → Bool) (l : List α) :
    (shellPass6 lt l).Perm l :=
  foldl_shellStep_perm lt (List.range l.length) l

theorem sortSlice_perm {α : Type} (lt : α → α → Bool) (l : List α) :
    (sortSlice lt l).Perm l :=
  (goInsertionSort_perm lt (shellPass6 lt l)).trans (shellPass6_perm lt l)

theorem mem_sortSlice {α : Type} (lt : α → α → Bool) (l : List α) (x : α) :
    x ∈ sortSlice lt l ↔ x ∈ l :=
  (sortSlice_perm lt l).mem_iff

theorem length_sortSlice {α : Type} (lt : α → α → Bool) (l : List α) :
    (sortSlice lt l).length = l.length :=
  (sortSlice_perm lt l).length_eq

theorem goInsertOne_sorted {α : Type} (k : α → ℚ) (lt : α → α → Bool)
    (hlt : ∀ x y, lt x y = true ↔ k x < k y) (x : α) :
    ∀ l : List α, l.Pairwise (fun a b => k a ≤ k b) →
      (goInsertOne lt x l).Pairwise (fun a b => k a ≤ k b) := by
  intro l
  induction l with
  | nil => intro _; simp [goInsertOne]
  | cons y ys ih =>
      intro hl
      rw [List.pairwise_cons] at hl
      obtain ⟨hy, hys⟩ := hl
      simp only [goInsertOne]
      split
      · rename_i h
        have hxy : k x < k y := (hlt x y).1 h
        refine List.Pairwise.cons ?_ (List.Pairwise.cons hy hys)
        intro b hb
        rcases List.mem_cons.mp hb with rfl | hb
        · exact le_of_lt hxy
        · exact le_of_lt (lt_of_lt_of_le hxy (hy b hb))
      · rename_i h
        have hyx : k y ≤ k x := by
          by_contra hc
          exact h ((hlt x y).2 (lt_of_not_le hc))
        refine List.Pairwise.cons ?_ (ih hys)
        intro b hb
        rcases List.mem_cons.mp ((goInsertOne_perm lt x ys).mem_iff.mp hb) with rfl | hb2
        · exact hyx
        · exact hy b hb2

theorem goInsertionSort_sorted_aux {α : Type} (k : α → ℚ) (lt : α → α → Bool)
    (hlt : ∀ x y, lt x y = true ↔ k x < k y) :
    ∀ (l acc : List α), acc.Pairwise (fun a b => k a ≤ k b) →
      (l.foldl (fun acc x => goInsertOne lt x acc) acc).Pairwise (fun a b => k a ≤ k b) := by
  intro l
  induction l with
  | nil => intro acc h; exact h
  | cons x xs ih =>
      intro acc h
      exact ih (goInsertOne lt x acc) (goInsertOne_sorted k lt hlt x acc h)

theorem sortSlice_sorted {α : Type} (k : α → ℚ) (lt : α → α → Bool)
    (hlt : ∀ x y, lt x y = true ↔ k x < k y) (l : List α) :
    (sortSlice lt l).Pairwise (fun a b => k a ≤ k b) :=
  goInsertionSort_sorted_aux k lt hlt (shellPass6 lt l) [] (List.Pairwise.nil)

theorem distanceLess_iff (x y : vaccineLocationFeatureAndDistance) :
    distanceLess x y = true ↔ x.distanceMiles < y.distanceMiles := by
  simp [distanceLess]

/-! ### Helper lemmas about the filter stage -/

theorem goToLower_length (s : String) : (goToLower s).length = s.length := by
  simp [goToLower]

theorem goToLower_length_pos_iff (s : String) : (goToLower s).length > 0 ↔ s ≠ "" := by
  rw [goToLower_length]
  cases s with
  | mk data =>
      cases data with
      | nil => simp [String.length]
      | cons c cs => simp [String.length, String.ext_iff]

theorem processFeature_eq_some_iff (dist : Coord ℚ → Coord ℚ → ℚ) (sl : Coord ℚ)
    (fp : String) (md : ℚ) (f : vaccineLocationFeature)
    (r : vaccineLocationFeatureAndDistance) :
    processFeature dist sl fp md f = some r ↔
      ¬(fp.length > 0 ∧ fp ≠ goTrimSpace (goToLower f.Properties.Provider)) ∧
      ¬(f.Properties.Appointments.length = 0 ∧ f.Properties.AppointmentsAvailable = false) ∧
      f.Geometry.Coordinates.length = 2 ∧
      ¬(md > 0 ∧
        dist sl ⟨f.Geometry.Coordinates.getD 1 0, f.Geometry.Coordinates.getD 0 0⟩ > md) ∧
      r = ⟨f, dist sl ⟨f.Geometry.Coordinates.getD 1 0, f.Geometry.Coordinates.getD 0 0⟩⟩ := by
  simp only [processFeature]
  split_ifs with h1 h2 h3 h4
  · simp only [(by simp : (none : Option vaccineLocationFeatureAndDistance) = some r ↔ False),
      false_iff]
    rintro ⟨hc, -⟩
    exact hc h1
  · simp only [(by simp : (none : Option vaccineLocationFeatureAndDistance) = some r ↔ False),
      false_iff]
    rintro ⟨-, hc, -⟩
    exact hc h2
  · simp only [(by simp : (none : Option vaccineLocationFeatureAndDistance) = some r ↔ False),
      false_iff]
    rintro ⟨-, -, hc, -⟩
    exact h3 hc
  · simp only [(by simp : (none : Option vaccineLocationFeatureAndDistance) = some r ↔ False),
      false_iff]
    rintro ⟨-, -, -, hc, -⟩
    exact hc h4
  · simp only [Option.some.injEq]
    constructor
    · intro h
      exact ⟨h1, h2, not_not.mp h3, h4, h.symm⟩
    · rintro ⟨-, -, -, -, rfl⟩
      rfl

theorem processFeature_none_of_badCoords (dist : Coord ℚ → Coord ℚ → ℚ) (sl : Coord ℚ)
    (fp : String) (md : ℚ) (f : vaccineLocationFeature)
    (hc : f.Geometry.Coordinates.length ≠ 2) :
    processFeature dist sl fp md f = none := by
  cases h : processFeature dist sl fp md f with
  | none => rfl
  | some r =>
      rw [processFeature_eq_some_iff] at h
      exact absurd h.2.2.1 hc

theorem mem_locationsWithAppointmentsPassingFilters (dist : Coord ℚ → Coord ℚ → ℚ)
    (cfg : configuration) :
    ∀ (rs : List apiGETResponse) (r : vaccineLocationFeatureAndDistance),
      r ∈ locationsWithAppointmentsPassingFilters dist cfg rs ↔
        ∃ f, (∃ resp ∈ rs, f ∈ resp.Features) ∧
          processFeature dist (searchLocation cfg) (goToLower cfg.FilterProvider)
            cfg.FilterDistanceMiles f = some r := by
  intro rs
  induction rs with
  | nil => intro r; simp [locationsWithAppointmentsPassingFilters]
  | cons resp rest ih =>
      intro r
      simp only [locationsWithAppointmentsPassingFilters, List.mem_append, List.mem_filterMap,
        ih, List.mem_cons]
      constructor
      · rintro (⟨f, hf, hpf⟩ | ⟨f, ⟨resp', hresp', hf⟩, hpf⟩)
        · exact ⟨f, ⟨resp, Or.inl rfl, hf⟩, hpf⟩
        · exact ⟨f, ⟨resp', Or.inr hresp', hf⟩, hpf⟩
      · rintro ⟨f, ⟨resp', hresp' | hresp', hf⟩, hpf⟩
        · subst hresp'
          exact Or.inl ⟨f, hf, hpf⟩
        · exact Or.inr ⟨f, ⟨resp', hresp', hf⟩, hpf⟩

theorem locationsWithAppointmentsPassingFilters_eq_filterMap (dist : Coord ℚ → Coord ℚ → ℚ)
    (cfg : configuration) :
    ∀ rs : List apiGETResponse,
      locationsWithAppointmentsPassingFilters dist cfg rs =
        ((rs.map (fun resp => resp.Features)).flatten).filterMap
          (processFeature dist (searchLocation cfg) (goToLower cfg.FilterProvider)
            cfg.FilterDistanceMiles) := by
  intro rs
  induction rs with
  | nil => simp [locationsWithAppointmentsPassingFilters]
  | cons resp rest ih =>
      simp [locationsWithAppointmentsPassingFilters, ih, List.filterMap_append]

theorem locationsWithAppointmentsPassingFilters_concat (dist : Coord ℚ → Coord ℚ → ℚ)
    (cfg : configuration) (rs : List apiGETResponse) :
    locationsWithAppointmentsPassingFilters dist cfg rs =
      locationsWithAppointmentsPassingFilters dist cfg
        [⟨(rs.map (fun resp => resp.Features)).flatten⟩] := by
  rw [locationsWithAppointmentsPassingFilters_eq_filterMap,
    locationsWithAppointmentsPassingFilters_eq_filterMap]
  simp

/-! ### Helper lemmas about the fetch stage -/

theorem fetchLoop_map_ok : ∀ rs : List apiGETResponse,
    fetchLoop (rs.map Except.ok) = Except.ok rs := by
  intro rs
  induction rs with
  | nil => rfl
  | cons r rest ih => simp [fetchLoop, ih]

theorem fetchLoop_error_of_mem :
    ∀ (rs : List (Except String apiGETResponse)) (e : String),
      Except.error e ∈ rs → ∃ msg, fetchLoop rs = Except.error msg := by
  intro rs
  induction rs with
  | nil => intro e h; simp at h
  | cons r rest ih =>
      intro e h
      rcases List.mem_cons.mp h with rfl | h2
      · exact ⟨e, rfl⟩
      · cases r with
        | error e' => exact ⟨e', rfl⟩
        | ok a =>
            obtain ⟨msg, hmsg⟩ := ih e h2
            refine ⟨msg, ?_⟩
            simp [fetchLoop, hmsg]

/-! ### Claim theorems -/

/-- C1 counterexample: the ranking is not a stable sort.  On a concrete
seven-feature feed the survivors named `A` (feed position 1) and `B`
(feed position 6) both lie at distance 1, with `A` before `B` in the
survivor list, yet the ranked output lists `B` before `A`: `sort.Slice`
first performs a gap-6 Shell pass that swaps positions 0 and 6. -/
theorem c1_counterexample :
    ((locationsWithAppointmentsPassingFilters testDist cfgC1 [⟨featuresC1⟩]).map
        (fun r => (r.vaccineLocationFeature.Properties.Name, r.distanceMiles))
      = [("F0", 5), ("A", 1), ("C", 9), ("D", 9), ("E", 9), ("G", 9), ("B", 1)]) ∧
    ((nearestLocationsToLog testDist cfgC1 [⟨featuresC1⟩]).map
        (fun r => r.vaccineLocationFeature.Properties.Name)
      = ["B", "A", "F0", "C", "D", "E", "G"]) := by
  constructor
  · decide
  · decide

/-- C1 (amended): the ranking step sorts the surviving locations
ascending by distance and the result is a permutation of the survivor
list, so repeated runs on the same data produce the same ordering (the
pipeline is a pure function); but ties are not guaranteed to keep their
original relative order, `sort.Slice` being unstable. -/
theorem c1_ranking_sorted_permutation (dist : Coord ℚ → Coord ℚ → ℚ)
    (cfg : configuration) (rs : List apiGETResponse) :
    (sortedLocations dist cfg rs).Pairwise
        (fun a b => a.distanceMiles ≤ b.distanceMiles) ∧
    (sortedLocations dist cfg rs).Perm
        (locationsWithAppointmentsPassingFilters dist cfg rs) :=
  ⟨sortSlice_sorted (fun r => r.distanceMiles) distanceLess distanceLess_iff _,
   sortSlice_perm _ _⟩

/-- C2 counterexample: the filter criterion is lower-cased but never
trimmed, so the comparison is not symmetric in white space.  With
criterion `" clinic a "` and feature provider `"clinic a"` the claim's
normalization makes the two sides equal (first conjunct), yet the
pipeline excludes the feature and reports nothing (second conjunct). -/
theorem c2_counterexample :
    goTrimSpace (goToLower " clinic a ") = goTrimSpace (goToLower "clinic a") ∧
    nearestLocationsToLog testDist cfgC2 [⟨[featC2]⟩] = [] := by
  constructor
  · decide
  · decide

/-- C2 (amended): the provider comparison lower-cases the filter
criterion without trimming it, while the feature's provider is
lower-cased and trimmed; with a non-empty criterion, a mismatch of those
two normalized strings excludes the feature, and on a match the provider
filter is transparent (the feature is processed exactly as with an empty
criterion).  So `"clinic a"` matches `" Clinic A "`, but a criterion with
surrounding whitespace does not match its trimmed counterpart. -/
theorem c2_provider_filter_amended (dist : Coord ℚ → Coord ℚ → ℚ) (sl : Coord ℚ)
    (fpRaw : String) (md : ℚ) (f : vaccineLocationFeature)
    (hne : goToLower fpRaw ≠ "") :
    (goToLower fpRaw ≠ goTrimSpace (goToLower f.Properties.Provider) →
      processFeature dist sl (goToLower fpRaw) md f = none) ∧
    (goToLower fpRaw = goTrimSpace (goToLower f.Properties.Provider) →
      processFeature dist sl (goToLower fpRaw) md f = processFeature dist sl "" md f) := by
  have hlen : (goToLower fpRaw).length > 0 :=
    (goToLower_length_pos_iff fpRaw).mpr (by
      intro hc
      exact hne (by rw [hc]; rfl))
  constructor
  · intro hneq
    simp only [processFeature]
    rw [if_pos ⟨hlen, hneq⟩]
  · intro heq
    have hA : ¬((goToLower fpRaw).length > 0 ∧
        goToLower fpRaw ≠ goTrimSpace (goToLower f.Properties.Provider)) := by
      rintro ⟨-, hc⟩
      exact hc heq
    have hB : ¬(("" : String).length > 0 ∧
        ("" : String) ≠ goTrimSpace (goToLower f.Properties.Provider)) := by
      rintro ⟨hc, -⟩
      exact absurd hc (by decide)
    simp only [processFeature]
    rw [if_neg hA, if_neg hB]

/-- C2 amended-claim witness: a lower-cased criterion `"clinic b"`
mismatches the normalized provider `"clinic a"` of the concrete feature,
which is therefore excluded. -/
theorem c2_amended_witness :
    processFeature testDist ⟨0, 0⟩ (goToLower "clinic b") 0 featC2 = none :=
  (c2_provider_filter_amended testDist ⟨0, 0⟩ "clinic b" 0 featC2 (by decide)).1 (by decide)

/-- C9: the haversine distance (modelled from the spec, the library
implementation not being part of this repository) is a pure function
returning zero on identical points, symmetric in its two arguments, and
non-negative everywhere. -/
theorem c9_haversine_properties :
    (∀ a : Coord ℝ, haversineMiles a a = 0) ∧
    (∀ a b : Coord ℝ, haversineMiles a b = haversineMiles b a) ∧
    (∀ a b : Coord ℝ, 0 ≤ haversineMiles a b) := by
  refine ⟨?_, ?_, ?_⟩
  · intro a
    simp [haversineMiles]
  · intro a b
    simp only [haversineMiles]
    have h1 : degreesToRadians b.Lat - degreesToRadians a.Lat
        = -(degreesToRadians a.Lat - degreesToRadians b.Lat) := by ring
    have h2 : degreesToRadians b.Lon - degreesToRadians a.Lon
        = -(degreesToRadians a.Lon - degreesToRadians b.Lon) := by ring
    rw [h1, h2, neg_div, neg_div, Real.sin_neg, Real.sin_neg, neg_sq, neg_sq,
      mul_comm (Real.cos (degreesToRadians a.Lat)) (Real.cos (degreesToRadians b.Lat))]
  · intro a b
    simp only [haversineMiles]
    have h1 : 0 ≤ Real.arcsin (Real.sqrt
        (Real.sin ((degreesToRadians b.Lat - degreesToRadians a.Lat) / 2) ^ 2 +
          Real.cos (degreesToRadians a.Lat) * Real.cos (degreesToRadians b.Lat) *
            Real.sin ((degreesToRadians b.Lon - degreesToRadians a.Lon) / 2) ^ 2)) :=
      Real.arcsin_nonneg.mpr (Real.sqrt_nonneg _)
    have h2 : (0:ℝ) ≤ 2 := by norm_num
    have h3 : (0:ℝ) ≤ 3958 := by norm_num
    exact mul_nonneg h3 (mul_nonneg h2 h1)

/-- C10: a non-positive configured `NumNearestLocationsToLog` (the loop
bound is `i < N && i < len`) reports nothing, and for every value of `N`
the reported sequence never exceeds the survivor list in length, so the
loop cannot read past its end. -/
theorem c10_nonpositive_N (dist : Coord ℚ → Coord ℚ → ℚ) (cfg : configuration)
    (rs : List apiGETResponse) :
    (cfg.NumNearestLocationsToLog ≤ 0 → nearestLocationsToLog dist cfg rs = []) ∧
    (nearestLocationsToLog dist cfg rs).length ≤
      (locationsWithAppointmentsPassingFilters dist cfg rs).length := by
  constructor
  · intro hN
    rw [nearestLocationsToLog, Int.toNat_of_nonpos hN, List.take_zero]
  · rw [nearestLocationsToLog, List.length_take, sortedLocations, length_sortSlice]
    exact min_le_right _ _

/-- C10 witness: with `NumNearestLocationsToLog = -1` and one qualifying
feature, nothing is reported. -/
theorem c10_witness :
    cfgC10.NumNearestLocationsToLog ≤ 0 ∧
    nearestLocationsToLog testDist cfgC10 [⟨[featC10]⟩] = [] :=
  ⟨by decide, (c10_nonpositive_N testDist cfgC10 [⟨[featC10]⟩]).1 (by decide)⟩

/-- C3: every reported location passes the availability predicate, the
provider filter whenever a non-empty provider criterion is configured,
and the distance filter whenever a positive maximum distance is
configured. -/
theorem c3_output_passes_all_filters (dist : Coord ℚ → Coord ℚ → ℚ)
    (cfg : configuration) (rs : List apiGETResponse)
    (r : vaccineLocationFeatureAndDistance)
    (hr : r ∈ nearestLocationsToLog dist cfg rs) :
    hasAppointments r.vaccineLocationFeature = true ∧
    (cfg.FilterProvider ≠ "" →
      goToLower cfg.FilterProvider =
        goTrimSpace (goToLower r.vaccineLocationFeature.Properties.Provider)) ∧
    (cfg.FilterDistanceMiles > 0 → r.distanceMiles ≤ cfg.FilterDistanceMiles) := by
  have h1 : r ∈ sortedLocations dist cfg rs := List.take_subset _ _ hr
  have h2 : r ∈ locationsWithAppointmentsPassingFilters dist cfg rs :=
    (mem_sortSlice _ _ _).mp h1
  obtain ⟨f, -, hpf⟩ :=
    (mem_locationsWithAppointmentsPassingFilters dist cfg rs r).mp h2
  rw [processFeature_eq_some_iff] at hpf
  obtain ⟨hprov, hav, -, hdist, rfl⟩ := hpf
  refine ⟨?_, ?_, ?_⟩
  · exact decide_eq_true hav
  · intro hne
    have hlen : (goToLower cfg.FilterProvider).length > 0 :=
      (goToLower_length_pos_iff _).mpr hne
    by_contra hneq
    exact hprov ⟨hlen, hneq⟩
  · intro hmd
    by_contra hgt
    exact hdist ⟨hmd, lt_of_not_le hgt⟩

/-- C3 witness: with provider filter `"Clinic A"` and maximum distance
10, the concrete reported location `rC3` passes all three filters. -/
theorem c3_witness :
    hasAppointments rC3.vaccineLocationFeature = true ∧
    (cfgC3.FilterProvider ≠ "" →
      goToLower cfgC3.FilterProvider =
        goTrimSpace (goToLower rC3.vaccineLocationFeature.Properties.Provider)) ∧
    (cfgC3.FilterDistanceMiles > 0 → rC3.distanceMiles ≤ cfgC3.FilterDistanceMiles) :=
  c3_output_passes_all_filters testDist cfgC3 [⟨[featC3]⟩] rC3 (by decide)

/-- C4: the reported sequence has length `min N (number of survivors)`,
is sorted ascending by distance, and is empty (not an error: the
function is total) when no feature survives. -/
theorem c4_topN_selection (dist : Coord ℚ → Coord ℚ → ℚ) (cfg : configuration)
    (rs : List apiGETResponse) (hN : 0 ≤ cfg.NumNearestLocationsToLog) :
    (nearestLocationsToLog dist cfg rs).length =
      min cfg.NumNearestLocationsToLog.toNat
        (locationsWithAppointmentsPassingFilters dist cfg rs).length ∧
    (nearestLocationsToLog dist cfg rs).Pairwise
      (fun a b => a.distanceMiles ≤ b.distanceMiles) ∧
    (locationsWithAppointmentsPassingFilters dist cfg rs = [] →
      nearestLocationsToLog dist cfg rs = []) := by
  refine ⟨?_, ?_, ?_⟩
  · rw [nearestLocationsToLog, List.length_take, sortedLocations, length_sortSlice]
  · exact List.Pairwise.sublist (List.take_sublist _ _)
      (sortSlice_sorted (fun r => r.distanceMiles) distanceLess distanceLess_iff _)
  · intro h
    rw [nearestLocationsToLog, sortedLocations, h]
    simp [sortSlice, shellPass6, goInsertionSort]

/-- C4 witness: three survivors and `N = 2` report exactly the two
nearest, sorted. -/
theorem c4_witness :
    0 ≤ cfgC4.NumNearestLocationsToLog ∧
    ((nearestLocationsToLog testDist cfgC4 [⟨featuresC4⟩]).length =
      min cfgC4.NumNearestLocationsToLog.toNat
        (locationsWithAppointmentsPassingFilters testDist cfgC4 [⟨featuresC4⟩]).length ∧
    (nearestLocationsToLog testDist cfgC4 [⟨featuresC4⟩]).Pairwise
      (fun a b => a.distanceMiles ≤ b.distanceMiles) ∧
    (locationsWithAppointmentsPassingFilters testDist cfgC4 [⟨featuresC4⟩] = [] →
      nearestLocationsToLog testDist cfgC4 [⟨featuresC4⟩] = [])) :=
  ⟨by decide, c4_topN_selection testDist cfgC4 [⟨featuresC4⟩] (by decide)⟩

/-- C5: a feature "has appointments" exactly when its appointment list is
non-empty or its availability flag is set, and a feature satisfying
neither never appears in the ranked output, whatever its distance.  (In
the code the provider filter is textually applied before this check, but
filter order is not observable in the output.) -/
theorem c5_availability_predicate (dist : Coord ℚ → Coord ℚ → ℚ)
    (cfg : configuration) (rs : List apiGETResponse) (f : vaccineLocationFeature)
    (hA : f.Properties.Appointments = [])
    (hF : f.Properties.AppointmentsAvailable = false) :
    (∀ g : vaccineLocationFeature,
      hasAppointments g = true ↔
        (g.Properties.Appointments ≠ [] ∨ g.Properties.AppointmentsAvailable = true)) ∧
    (∀ r ∈ sortedLocations dist cfg rs, r.vaccineLocationFeature ≠ f) := by
  constructor
  · intro g
    simp [hasAppointments, not_and_or, List.length_eq_zero]
  · intro r hr hc
    have h2 := (mem_sortSlice _ _ _).mp hr
    obtain ⟨g, -, hpf⟩ :=
      (mem_locationsWithAppointmentsPassingFilters dist cfg rs r).mp h2
    rw [processFeature_eq_some_iff] at hpf
    obtain ⟨-, hav, -, -, heq⟩ := hpf
    rw [heq] at hc
    dsimp at hc
    rw [hc] at hav
    exact hav ⟨by rw [hA]; rfl, hF⟩

/-- C5 witness: the concrete feature `featC5` (no appointment slots, flag
unset) is never reported even though it is the nearest feature. -/
theorem c5_witness :
    featC5.Properties.Appointments = [] ∧
    featC5.Properties.AppointmentsAvailable = false ∧
    ∀ r ∈ sortedLocations testDist cfgC5 [⟨[featC5]⟩], r.vaccineLocationFeature ≠ featC5 :=
  ⟨by decide, by decide,
   (c5_availability_predicate testDist cfgC5 [⟨[featC5]⟩] featC5 (by decide) (by decide)).2⟩

/-- C6: a feature whose coordinate list does not have exactly two entries
is excluded from the ranking and leaves the rest of the run unchanged
(the pipeline is total, so no fatal error occurs), while a feature with
coordinates `[lon, lat]` is ranked with the distance to the point whose
latitude is entry 1 and longitude entry 0. -/
theorem c6_geometry_validation (dist : Coord ℚ → Coord ℚ → ℚ) (cfg : configuration)
    (fs1 fs2 : List vaccineLocationFeature) (bad f : vaccineLocationFeature)
    (r : vaccineLocationFeatureAndDistance) (lon lat : ℚ)
    (hbad : bad.Geometry.Coordinates.length ≠ 2)
    (hco : f.Geometry.Coordinates = [lon, lat]) :
    (∀ rr ∈ sortedLocations dist cfg [⟨fs1 ++ bad :: fs2⟩],
      rr.vaccineLocationFeature ≠ bad) ∧
    sortedLocations dist cfg [⟨fs1 ++ bad :: fs2⟩] =
      sortedLocations dist cfg [⟨fs1 ++ fs2⟩] ∧
    (processFeature dist (searchLocation cfg) (goToLower cfg.FilterProvider)
        cfg.FilterDistanceMiles f = some r →
      r.distanceMiles = dist (searchLocation cfg) ⟨lat, lon⟩) := by
  refine ⟨?_, ?_, ?_⟩
  · intro rr hrr hc
    have h2 := (mem_sortSlice _ _ _).mp hrr
    obtain ⟨g, -, hpf⟩ :=
      (mem_locationsWithAppointmentsPassingFilters dist cfg _ rr).mp h2
    rw [processFeature_eq_some_iff] at hpf
    obtain ⟨-, -, hlen2, -, heq⟩ := hpf
    rw [heq] at hc
    dsimp at hc
    rw [hc] at hlen2
    exact hbad hlen2
  · unfold sortedLocations
    congr 1
    simp [locationsWithAppointmentsPassingFilters, List.filterMap_append,
      processFeature_none_of_badCoords dist (searchLocation cfg)
        (goToLower cfg.FilterProvider) cfg.FilterDistanceMiles bad hbad]
  · intro hpf
    rw [processFeature_eq_some_iff] at hpf
    obtain ⟨-, -, -, -, heq⟩ := hpf
    rw [heq]
    dsimp
    rw [hco]
    simp [List.getD]

/-- C6 witness: the three-coordinate feature `featC6bad` is dropped
without affecting the feature `featC6good` at `[7, 3]`, whose ranked
distance is computed from latitude 3 and longitude 7. -/
theorem c6_witness :
    featC6bad.Geometry.Coordinates.length ≠ 2 ∧
    sortedLocations testDist cfgC6 [⟨[featC6bad, featC6good]⟩] =
      sortedLocations testDist cfgC6 [⟨[featC6good]⟩] ∧
    (⟨featC6good, 3⟩ : vaccineLocationFeatureAndDistance).distanceMiles =
      testDist (searchLocation cfgC6) ⟨3, 7⟩ := by
  have h := c6_geometry_validation testDist cfgC6 [] [featC6good] featC6bad featC6good
    ⟨featC6good, 3⟩ 7 3 (by decide) (by decide)
  exact ⟨by decide, h.2.1, h.2.2 (by decide)⟩

/-- C7: once a feature has passed the provider, availability and
geometry checks, it is excluded exactly when a positive maximum distance
is configured and its computed distance strictly exceeds it; otherwise it
is kept, tagged with that computed distance.  A maximum of zero or less
never excludes. -/
theorem c7_distance_filter (dist : Coord ℚ → Coord ℚ → ℚ) (sl : Coord ℚ)
    (fp : String) (md : ℚ) (f : vaccineLocationFeature)
    (hprov : ¬(fp.length > 0 ∧ fp ≠ goTrimSpace (goToLower f.Properties.Provider)))
    (hav : hasAppointments f = true)
    (hco : f.Geometry.Coordinates.length = 2) :
    processFeature dist sl fp md f =
      if md > 0 ∧
          dist sl ⟨f.Geometry.Coordinates.getD 1 0, f.Geometry.Coordinates.getD 0 0⟩ > md
      then none
      else some ⟨f, dist sl ⟨f.Geometry.Coordinates.getD 1 0, f.Geometry.Coordinates.getD 0 0⟩⟩ := by
  have hav' : ¬(f.Properties.Appointments.length = 0 ∧
      f.Properties.AppointmentsAvailable = false) := of_decide_eq_true hav
  simp only [processFeature]
  rw [if_neg hprov, if_neg hav', if_neg (not_not_intro hco)]

/-- C7 witness: the spec scenario — maximum distance 10, feature at
distance 15 — excludes the feature. -/
theorem c7_witness : processFeature testDist ⟨0, 0⟩ "" 10 featC7 = none := by
  rw [c7_distance_filter testDist ⟨0, 0⟩ "" 10 featC7 (by decide) (by decide) (by decide)]
  decide

/-- C8: with several configured feeds, any single failed fetch fails the
whole run with no incomplete result, and on success the reported output is
the one obtained by concatenating all feeds' features into a single
working set before filtering and ranking (filters and ranking are global,
not per feed). -/
theorem c8_multi_feed_aggregation (dist : Coord ℚ → Coord ℚ → ℚ) (cfg : configuration)
    (frs : List (Except String apiGETResponse)) :
    ((∃ e, Except.error e ∈ frs) →
      ∃ msg, searchForAppointments dist cfg frs = Except.error msg) ∧
    (∀ rs : List apiGETResponse, fetchLoop frs = Except.ok rs →
      searchForAppointments dist cfg frs =
        Except.ok (nearestLocationsToLog dist cfg
          [⟨((rs.map (fun resp => resp.Features)).flatten)⟩])) := by
  constructor
  · rintro ⟨e, he⟩
    obtain ⟨msg, hmsg⟩ := fetchLoop_error_of_mem frs e he
    exact ⟨msg, by simp only [searchForAppointments, hmsg]⟩
  · intro rs hok
    simp only [searchForAppointments, hok]
    rw [nearestLocationsToLog, nearestLocationsToLog, sortedLocations, sortedLocations,
      locationsWithAppointmentsPassingFilters_concat dist cfg rs]

/-- C8 witness: a failing first feed aborts the run; two successful feeds
with 3 and 2 qualifying features and `N = 4` report exactly the 4 nearest
locations across both feeds. -/
theorem c8_witness :
    (∃ msg, searchForAppointments testDist cfgC8 rsC8err = Except.error msg) ∧
    searchForAppointments testDist cfgC8 rsC8ok =
      Except.ok (nearestLocationsToLog testDist cfgC8
        [⟨(([feedA, feedB].map (fun resp => resp.Features)).flatten)⟩]) ∧
    ((nearestLocationsToLog testDist cfgC8
        [⟨(([feedA, feedB].map (fun resp => resp.Features)).flatten)⟩]).map
          (fun r => (r.vaccineLocationFeature.Properties.Name, r.distanceMiles)))
      = [("B1", 5), ("A1", 10), ("B2", 15), ("A2", 20)] :=
  ⟨(c8_multi_feed_aggregation testDist cfgC8 rsC8err).1 ⟨"boom", List.Mem.head _⟩,
   (c8_multi_feed_aggregation testDist cfgC8 rsC8ok).2 [feedA, feedB] rfl,
   by decide⟩
